import Mathlib

/-!
Shallow embedding of the fx-trade-journal application (`trade_journal.py`).

The program is a single-table CRUD store over trade records, plus a
filter over an in-memory record collection, plus weekly/monthly count
aggregation.  SQLite state is modelled as a list of rows together with
the next auto-increment id; pandas operations are modelled as list
operations that can fail (`Option`) where pandas would raise.
-/

namespace TradeJournal

/-- A row of the `trades` table.  `entry_price`, `result` and `pips` are the
columns added by the startup migration, hence nullable (`Option`).  SQLite
`INTEGER`/`REAL` are modelled as `Int`/`ℚ`. -/
structure TradeRow where
  id : Nat
  pair : String
  trade_type : String
  time : String
  tp : Int
  sl : Int
  rr : ℚ
  reason : String
  entry_price : Option ℚ
  result : Option String
  pips : Option Int
  deriving Repr, DecidableEq

/-- The persistent store: the rows of `trades` in primary-key (insertion)
order, plus the next auto-increment id. -/
structure DB where
  rows : List TradeRow
  nextId : Nat
  deriving Repr, DecidableEq

/-- `insert_trade` (trade_journal.py:38-43): appends a new row, assigning the
next auto-increment id. -/
def insert_trade (db : DB) (pair trade_type time : String) (entry_price : Option ℚ)
    (tp sl : Int) (rr : ℚ) (result : Option String) (pips : Option Int)
    (reason : String) : DB :=
  { rows := db.rows ++
      [{ id := db.nextId, pair := pair, trade_type := trade_type, time := time,
         tp := tp, sl := sl, rr := rr, reason := reason,
         entry_price := entry_price, result := result, pips := pips }],
    nextId := db.nextId + 1 }

/-- `get_all_trades` (trade_journal.py:45-46): `SELECT * FROM trades`, rows in
primary-key order. -/
def get_all_trades (db : DB) : List TradeRow :=
  db.rows

/-- `delete_trade` (trade_journal.py:48-50): `DELETE FROM trades WHERE id = ?`. -/
def delete_trade (db : DB) (trade_id : Nat) : DB :=
  { db with rows := db.rows.filter (fun r => r.id != trade_id) }

/-- `update_result_pips` (trade_journal.py:52-54):
`UPDATE trades SET result = ?, pips = ? WHERE id = ?`. -/
def update_result_pips (db : DB) (trade_id : Nat) (result : Option String)
    (pips : Option Int) : DB :=
  { db with rows := db.rows.map (fun r =>
      if r.id = trade_id then { r with result := result, pips := pips } else r) }

/-- Python `round` to an integer: round half to even (banker's rounding),
over ℚ. -/
def roundHalfToEven (q : ℚ) : Int :=
  let f : Int := ⌊q⌋
  let r : ℚ := q - f
  if r < 1/2 then f
  else if 1/2 < r then f + 1
  else if f % 2 = 0 then f else f + 1

/-- Python `round(x, 2)` (trade_journal.py:91), over ℚ. -/
def round2 (q : ℚ) : ℚ :=
  (roundHalfToEven (q * 100) : ℚ) / 100

/-- Python `s or None` on a string: the empty string is falsy and becomes
`None` (trade_journal.py:93, `result or None`). -/
def strOrNone (s : String) : Option String :=
  if s = "" then none else some s

/-- Python `n or None` on an integer: `0` is falsy and becomes `None`
(trade_journal.py:93, `pips or None`). -/
def intOrNone (n : Int) : Option Int :=
  if n = 0 then none else some n

/-- The fields the trade-entry form supplies to the submit handler. -/
structure SubmitInput where
  pair : String
  trade_type : String
  entry_price : ℚ
  tp : Int
  sl : Int
  result : String
  pips : Int
  reason : String
  deriving Repr, DecidableEq

/-- The `trade_form` submit handler (trade_journal.py:89-96): validates
`tp > 0 and sl > 0 and entry_price > 0`; on success computes
`rr = round(tp / sl, 2)` and inserts, coercing `result`/`pips` through
`or None`; on failure shows an error and writes nothing.  `now` is the
formatted Asia/Kolkata timestamp string.  Returns the new store state and
whether the save succeeded. -/
def trade_form_submit (db : DB) (now : String) (inp : SubmitInput) : DB × Bool :=
  if inp.tp > 0 ∧ inp.sl > 0 ∧ inp.entry_price > 0 then
    let rr := round2 ((inp.tp : ℚ) / (inp.sl : ℚ))
    (insert_trade db inp.pair inp.trade_type now (some inp.entry_price)
       inp.tp inp.sl rr (strOrNone inp.result) (intOrNone inp.pips) inp.reason,
     true)
  else
    (db, false)

/-! ### Timestamp parsing

`pd.to_datetime` is modelled on the canonical `YYYY-MM-DD HH:MM:SS` format the
journal writes (trade_journal.py:93, `strftime("%Y-%m-%d %H:%M:%S")`), with
field-width flexibility; like pandas it validates calendar ranges and fails
(raises) on anything unparsable. -/

/-- Split a character list on a separator character (model of `str.split`). -/
def splitOnChar (c : Char) : List Char → List (List Char)
  | [] => [[]]
  | x :: xs =>
    match splitOnChar c xs with
    | [] => [[]]
    | cur :: rest => if x = c then [] :: cur :: rest else (x :: cur) :: rest

/-- Parse a nonempty all-digit character list as a natural number. -/
def digitsToNat (l : List Char) : Option Nat :=
  if l ≠ [] ∧ l.all (·.isDigit) then
    some (l.foldl (fun a c => a * 10 + (c.toNat - 48)) 0)
  else none

/-- Gregorian leap year, as pandas/`datetime` implement it. -/
def isLeapYear (y : Nat) : Bool :=
  y % 4 == 0 && (y % 100 != 0 || y % 400 == 0)

/-- Number of days in a month of the Gregorian calendar. -/
def daysInMonth (y m : Nat) : Nat :=
  if m = 2 then (if isLeapYear y then 29 else 28)
  else if m = 4 ∨ m = 6 ∨ m = 9 ∨ m = 11 then 30
  else 31

/-- A parsed (validated) timestamp. -/
structure Timestamp where
  year : Nat
  month : Nat
  day : Nat
  hour : Nat
  minute : Nat
  second : Nat
  deriving Repr, DecidableEq

/-- Validate calendar ranges and build a timestamp, as `pd.to_datetime` does
before accepting a datetime. -/
def mkTimestamp (y mo d h mi s : Nat) : Option Timestamp :=
  if 1 ≤ mo ∧ mo ≤ 12 ∧ 1 ≤ d ∧ d ≤ daysInMonth y mo ∧ h < 24 ∧ mi < 60 ∧ s < 60 then
    some { year := y, month := mo, day := d, hour := h, minute := mi, second := s }
  else none

/-- Parse a `YYYY-MM-DD HH:MM:SS` string into a validated timestamp; `none`
models `pd.to_datetime` raising on an unparsable value. -/
def parseTimestamp (str : String) : Option Timestamp :=
  match splitOnChar ' ' str.data with
  | [d, t] =>
    match splitOnChar '-' d, splitOnChar ':' t with
    | [ys, mos, ds], [hs, mis, ss] =>
      match digitsToNat ys, digitsToNat mos, digitsToNat ds,
            digitsToNat hs, digitsToNat mis, digitsToNat ss with
      | some y, some mo, some dd, some h, some mi, some s => mkTimestamp y mo dd h mi s
      | _, _, _, _, _, _ => none
    | _, _ => none
  | _ => none

/-- A strictly monotone key for chronological comparison of valid timestamps
(every mixed-radix digit stays below its base). -/
def Timestamp.key (t : Timestamp) : Nat :=
  ((((t.year * 13 + t.month) * 32 + t.day) * 24 + t.hour) * 60 + t.minute) * 60 + t.second

/-- Chronological key of a row's `time` field (0 when unparsable; only used
under the all-parsable guard, mirroring `pd.to_datetime` on the column). -/
def timeKey (s : String) : Nat :=
  ((parseTimestamp s).map Timestamp.key).getD 0

/-- The filter over the trade table (trade_journal.py:111-113):
`pair.isin(pair_filter) & trade_type.isin(type_filter)
 & (pd.to_datetime(time) >= pd.to_datetime(date_filter))`.
`pd.to_datetime` over the whole column raises if any row's `time` is
unparsable, modelled as `none`; `min_date` is the midnight timestamp of the
chosen date. -/
def filterTrades (rows : List TradeRow) (pair_set type_set : List String)
    (min_date : Timestamp) : Option (List TradeRow) :=
  if rows.all (fun r => (parseTimestamp r.time).isSome) then
    some (rows.filter (fun r =>
      pair_set.contains r.pair && type_set.contains r.trade_type &&
      decide (min_date.key ≤ timeKey r.time)))
  else none

/-- The row the submit handler hands to `insert_trade` (abbreviation of the
argument tuple at trade_journal.py:93, used in proofs). -/
def submitRow (db : DB) (now : String) (inp : SubmitInput) : TradeRow :=
  { id := db.nextId, pair := inp.pair, trade_type := inp.trade_type, time := now,
    tp := inp.tp, sl := inp.sl, rr := round2 ((inp.tp : ℚ) / (inp.sl : ℚ)),
    reason := inp.reason, entry_price := some inp.entry_price,
    result := strOrNone inp.result, pips := intOrNone inp.pips }

lemma trade_form_submit_pos (db : DB) (now : String) (inp : SubmitInput)
    (hc : inp.tp > 0 ∧ inp.sl > 0 ∧ inp.entry_price > 0) :
    trade_form_submit db now inp =
      ({ rows := db.rows ++ [submitRow db now inp], nextId := db.nextId + 1 }, true) := by
  simp [trade_form_submit, hc, insert_trade, submitRow]

/-- Sample rows and store used by the witness instances. -/
def sampleRow1 : TradeRow :=
  { id := 1, pair := "EURUSD", trade_type := "Buy", time := "2025-03-01 10:00:00",
    tp := 50, sl := 25, rr := 2, reason := "r1", entry_price := some 1,
    result := none, pips := none }

def sampleRow2 : TradeRow :=
  { id := 2, pair := "USDJPY", trade_type := "Sell", time := "2024-12-31 23:59:59",
    tp := 30, sl := 10, rr := 3, reason := "r2", entry_price := some 150,
    result := some "Win", pips := some 25 }

def sampleDB : DB := { rows := [sampleRow1, sampleRow2], nextId := 3 }

/-- C1: a record created through the submit/insert path with valid positive
`tp`, `sl` (and `entry_price`) stores `rr = round(tp/sl, 2)`; in every case,
any record the handler appends carries `rr` recomputed from its own `tp`/`sl`
(the caller never supplies `rr` to the form). -/
theorem c1_rr_recomputed (db : DB) (now : String) (inp : SubmitInput) :
    (0 < inp.tp ∧ 0 < inp.sl ∧ 0 < inp.entry_price →
      ∃ r, (trade_form_submit db now inp).1.rows = db.rows ++ [r] ∧
        r.tp = inp.tp ∧ r.sl = inp.sl ∧ r.rr = round2 ((inp.tp : ℚ) / (inp.sl : ℚ))) ∧
    ((trade_form_submit db now inp).1.rows = db.rows ∨
      ∃ r, (trade_form_submit db now inp).1.rows = db.rows ++ [r] ∧
        r.rr = round2 ((r.tp : ℚ) / (r.sl : ℚ))) := by
  by_cases hc : inp.tp > 0 ∧ inp.sl > 0 ∧ inp.entry_price > 0
  · rw [trade_form_submit_pos db now inp hc]
    exact ⟨fun _ => ⟨submitRow db now inp, rfl, rfl, rfl, rfl⟩,
           Or.inr ⟨submitRow db now inp, rfl, rfl⟩⟩
  · exact ⟨fun h => absurd h hc, Or.inl (by simp [trade_form_submit, hc])⟩

theorem c1_rr_recomputed_witness :
    ∃ r, (trade_form_submit sampleDB "2025-03-02 09:00:00"
            { pair := "EURUSD", trade_type := "Buy", entry_price := 1,
              tp := 50, sl := 25, result := "", pips := 0, reason := "" }).1.rows =
          sampleDB.rows ++ [r] ∧
      r.tp = 50 ∧ r.sl = 25 ∧ r.rr = round2 ((50 : ℚ) / (25 : ℚ)) :=
  (c1_rr_recomputed sampleDB "2025-03-02 09:00:00"
    { pair := "EURUSD", trade_type := "Buy", entry_price := 1,
      tp := 50, sl := 25, result := "", pips := 0, reason := "" }).1 (by decide)

/-- C2: a submission with `tp ≤ 0` or `sl ≤ 0` or `entry_price ≤ 0` leaves
the store exactly as it was (no record, no partial write) and reports
failure to the caller. -/
theorem c2_invalid_rejected (db : DB) (now : String) (inp : SubmitInput)
    (h : inp.tp ≤ 0 ∨ inp.sl ≤ 0 ∨ inp.entry_price ≤ 0) :
    trade_form_submit db now inp = (db, false) := by
  have hc : ¬(inp.tp > 0 ∧ inp.sl > 0 ∧ inp.entry_price > 0) := by
    rintro ⟨h1, h2, h3⟩
    rcases h with h | h | h <;> linarith
  simp [trade_form_submit, hc]

theorem c2_invalid_rejected_witness :
    trade_form_submit sampleDB "2025-03-02 09:00:00"
      { pair := "EURUSD", trade_type := "Buy", entry_price := 1,
        tp := 0, sl := 25, result := "", pips := 0, reason := "" } =
      (sampleDB, false) :=
  c2_invalid_rejected sampleDB "2025-03-02 09:00:00"
    { pair := "EURUSD", trade_type := "Buy", entry_price := 1,
      tp := 0, sl := 25, result := "", pips := 0, reason := "" }
    (Or.inl (by decide))

/-- C4: `update_result_pips` keeps the row list the same length, overwrites
only `result` and `pips` on rows whose `id` matches, and leaves every other
row — and every other field of the matched row — untouched, position by
position. -/
theorem c4_update_frame (db : DB) (tid : Nat) (res : Option String) (p : Option Int) :
    (update_result_pips db tid res p).rows.length = db.rows.length ∧
    ∀ (i : Nat) (r s : TradeRow), db.rows[i]? = some r →
      (update_result_pips db tid res p).rows[i]? = some s →
      (s.id = r.id ∧ s.pair = r.pair ∧ s.trade_type = r.trade_type ∧
       s.time = r.time ∧ s.tp = r.tp ∧ s.sl = r.sl ∧ s.rr = r.rr ∧
       s.reason = r.reason ∧ s.entry_price = r.entry_price) ∧
      (r.id = tid → s.result = res ∧ s.pips = p) ∧
      (r.id ≠ tid → s = r) := by
  refine ⟨by simp [update_result_pips], ?_⟩
  intro i r s hr hs
  rw [show (update_result_pips db tid res p).rows =
        db.rows.map (fun r => if r.id = tid then { r with result := res, pips := p } else r)
      from rfl, List.getElem?_map, hr] at hs
  rw [Option.map_some'] at hs
  injection hs with hs
  by_cases hid : r.id = tid
  · rw [if_pos hid] at hs
    subst hs
    exact ⟨⟨rfl, rfl, rfl, rfl, rfl, rfl, rfl, rfl, rfl⟩,
           fun _ => ⟨rfl, rfl⟩, fun hn => absurd hid hn⟩
  · rw [if_neg hid] at hs
    subst hs
    exact ⟨⟨rfl, rfl, rfl, rfl, rfl, rfl, rfl, rfl, rfl⟩,
           fun he => absurd he hid, fun _ => rfl⟩

theorem c4_update_frame_witness :
    ((update_result_pips sampleDB 1 (some "Loss") (some (-10))).rows.length =
       sampleDB.rows.length) ∧
    ∀ s, (update_result_pips sampleDB 1 (some "Loss") (some (-10))).rows[0]? = some s →
      (s.id = sampleRow1.id ∧ s.pair = sampleRow1.pair ∧
       s.trade_type = sampleRow1.trade_type ∧ s.time = sampleRow1.time ∧
       s.tp = sampleRow1.tp ∧ s.sl = sampleRow1.sl ∧ s.rr = sampleRow1.rr ∧
       s.reason = sampleRow1.reason ∧ s.entry_price = sampleRow1.entry_price) ∧
      s.result = some "Loss" ∧ s.pips = some (-10) := by
  have h := c4_update_frame sampleDB 1 (some "Loss") (some (-10))
  refine ⟨h.1, fun s hs => ?_⟩
  have h2 := h.2 0 sampleRow1 s (by decide) hs
  exact ⟨h2.1, h2.2.1 (by decide)⟩

/-- C5: when no stored row has the given id, both `update_result_pips` and
`delete_trade` leave the whole store unchanged (silent no-ops). -/
theorem c5_missing_id_noop (db : DB) (tid : Nat) (res : Option String) (p : Option Int)
    (h : ∀ r ∈ db.rows, r.id ≠ tid) :
    update_result_pips db tid res p = db ∧ delete_trade db tid = db := by
  constructor
  · have hm : db.rows.map
        (fun r => if r.id = tid then { r with result := res, pips := p } else r) = db.rows := by
      conv_rhs => rw [← List.map_id db.rows]
      exact List.map_congr_left (fun r hr => by rw [if_neg (h r hr)]; rfl)
    cases db
    simp only [update_result_pips] at hm ⊢
    rw [hm]
  · have hf : db.rows.filter (fun r => r.id != tid) = db.rows :=
      List.filter_eq_self.mpr (fun r hr => by simp [h r hr])
    cases db
    simp only [delete_trade] at hf ⊢
    rw [hf]

theorem c5_missing_id_noop_witness :
    update_result_pips sampleDB 99 (some "Win") (some 5) = sampleDB ∧
    delete_trade sampleDB 99 = sampleDB :=
  c5_missing_id_noop sampleDB 99 (some "Win") (some 5) (by decide)

/-- C6: after `delete_trade id`, `get_all_trades` contains no record with
that id. -/
theorem c6_delete_removes (db : DB) (tid : Nat) :
    ∀ r ∈ get_all_trades (delete_trade db tid), r.id ≠ tid := by
  intro r hr
  simp only [get_all_trades, delete_trade, List.mem_filter, bne_iff_ne, ne_eq] at hr
  exact hr.2

theorem c6_delete_removes_witness :
    sampleRow1.id ≠ 2 :=
  c6_delete_removes sampleDB 2 sampleRow1 (by decide)

/-- C10: a validated submission with the empty-string result and `pips = 0`
is persisted exactly as an insert with `NULL` result and `NULL` pips — the
`or None` coercions make a reported pips of 0 indistinguishable in the store
from an absent one. -/
theorem c10_falsy_coerced_to_null (db : DB) (now : String) (inp : SubmitInput)
    (hv : 0 < inp.tp ∧ 0 < inp.sl ∧ 0 < inp.entry_price)
    (hr : inp.result = "") (hp : inp.pips = 0) :
    (trade_form_submit db now inp).1 =
      insert_trade db inp.pair inp.trade_type now (some inp.entry_price) inp.tp inp.sl
        (round2 ((inp.tp : ℚ) / (inp.sl : ℚ))) none none inp.reason := by
  rw [trade_form_submit_pos db now inp hv]
  simp [insert_trade, submitRow, strOrNone, intOrNone, hr, hp]

theorem c10_falsy_coerced_to_null_witness :
    (trade_form_submit sampleDB "2025-03-02 09:00:00"
        { pair := "EURUSD", trade_type := "Buy", entry_price := 1,
          tp := 50, sl := 25, result := "", pips := 0, reason := "" }).1 =
      insert_trade sampleDB "EURUSD" "Buy" "2025-03-02 09:00:00" (some 1) 50 25
        (round2 ((50 : ℚ) / (25 : ℚ))) none none "" :=
  c10_falsy_coerced_to_null sampleDB "2025-03-02 09:00:00"
    { pair := "EURUSD", trade_type := "Buy", entry_price := 1,
      tp := 50, sl := 25, result := "", pips := 0, reason := "" }
    (by decide) rfl rfl

/-- C3: on a record list whose `time` values all parse, the filter succeeds
and returns exactly the records whose `pair` is in `pair_set`, whose
`trade_type` is in `type_set`, and whose parsed time is `≥ min_date` — as an
order-preserving subsequence with full multiplicity — and an empty `pair_set`
or `type_set` yields the empty result. -/
theorem c3_filter_exact (rows : List TradeRow) (pair_set type_set : List String)
    (min_date : Timestamp)
    (hp : ∀ r ∈ rows, (parseTimestamp r.time).isSome = true) :
    ∃ l, filterTrades rows pair_set type_set min_date = some l ∧
      List.Sublist l rows ∧
      (∀ r, r ∈ l ↔ r ∈ rows ∧ r.pair ∈ pair_set ∧ r.trade_type ∈ type_set ∧
        min_date.key ≤ timeKey r.time) ∧
      (∀ r, List.count r l =
        if r.pair ∈ pair_set ∧ r.trade_type ∈ type_set ∧ min_date.key ≤ timeKey r.time
        then List.count r rows else 0) ∧
      ((pair_set = [] ∨ type_set = []) → l = []) := by
  have hall : rows.all (fun r => (parseTimestamp r.time).isSome) = true :=
    List.all_eq_true.mpr hp
  set q : TradeRow → Bool := fun r =>
    pair_set.contains r.pair && type_set.contains r.trade_type &&
      decide (min_date.key ≤ timeKey r.time) with hq
  have hqp : ∀ r : TradeRow, q r = true ↔
      (r.pair ∈ pair_set ∧ r.trade_type ∈ type_set ∧ min_date.key ≤ timeKey r.time) := by
    intro r
    simp [hq, and_assoc]
  have heq : filterTrades rows pair_set type_set min_date = some (rows.filter q) := by
    simp only [filterTrades, hq]
    rw [if_pos hall]
  refine ⟨rows.filter q, heq, List.filter_sublist rows, ?_, ?_, ?_⟩
  · intro r
    rw [List.mem_filter, hqp r]
  · intro r
    by_cases hqr : q r = true
    · rw [if_pos ((hqp r).mp hqr), List.count_filter hqr]
    · rw [if_neg (fun hc => hqr ((hqp r).mpr hc)), List.count_eq_zero.mpr
        (fun hm => hqr (List.of_mem_filter hm))]
  · intro h
    refine List.eq_nil_iff_forall_not_mem.mpr (fun r hm => ?_)
    have := (hqp r).mp (List.of_mem_filter hm)
    rcases h with h | h
    · rw [h] at this; exact absurd this.1 (List.not_mem_nil _)
    · rw [h] at this; exact absurd this.2.1 (List.not_mem_nil _)

theorem c3_filter_exact_witness :
    ∃ l, filterTrades sampleDB.rows ["EURUSD"] ["Buy"]
          { year := 2025, month := 1, day := 1, hour := 0, minute := 0, second := 0 } =
        some l ∧
      List.Sublist l sampleDB.rows ∧
      (∀ r, r ∈ l ↔ r ∈ sampleDB.rows ∧ r.pair ∈ ["EURUSD"] ∧
        r.trade_type ∈ ["Buy"] ∧
        Timestamp.key { year := 2025, month := 1, day := 1, hour := 0,
                        minute := 0, second := 0 } ≤ timeKey r.time) ∧
      (∀ r, List.count r l =
        if r.pair ∈ ["EURUSD"] ∧ r.trade_type ∈ ["Buy"] ∧
           Timestamp.key { year := 2025, month := 1, day := 1, hour := 0,
                           minute := 0, second := 0 } ≤ timeKey r.time
        then List.count r sampleDB.rows else 0) ∧
      ((["EURUSD"] = ([] : List String) ∨ ["Buy"] = ([] : List String)) → l = []) :=
  c3_filter_exact sampleDB.rows ["EURUSD"] ["Buy"]
    { year := 2025, month := 1, day := 1, hour := 0, minute := 0, second := 0 }
    (by decide)

/-! ### Startup schema migration (trade_journal.py:14-35) -/

/-- A concrete `trades` table: its column list (schema) and its rows. -/
structure Table where
  columns : List String
  rows : List TradeRow
  deriving Repr, DecidableEq

/-- Columns of the base `CREATE TABLE` statement (trade_journal.py:14-23). -/
def baseColumns : List String :=
  ["id", "pair", "trade_type", "time", "tp", "sl", "rr", "reason"]

/-- `ALTER TABLE trades ADD COLUMN c` guarded by the `PRAGMA table_info`
probe (trade_journal.py:27-34): appends the column only when missing; rows
are untouched (new column reads NULL). -/
def addColumnIfMissing (cols : List String) (c : String) : List String :=
  if c ∈ cols then cols else cols ++ [c]

/-- The column-probing migration (trade_journal.py:27-34): conditionally
`ALTER` in `entry_price`, then `result`, then `pips`. -/
def migrateColumns (cols : List String) : List String :=
  addColumnIfMissing (addColumnIfMissing (addColumnIfMissing cols "entry_price") "result") "pips"

/-- The startup DB setup (trade_journal.py:14-35): `CREATE TABLE IF NOT
EXISTS` with the base schema, then the column-probing migration.  `none`
models a store whose `trades` table does not yet exist. -/
def initializeStore (s : Option Table) : Table :=
  match s with
  | none => { columns := migrateColumns baseColumns, rows := [] }
  | some t => { t with columns := migrateColumns t.columns }

lemma addColumnIfMissing_mem_self (cols : List String) (c : String) :
    c ∈ addColumnIfMissing cols c := by
  unfold addColumnIfMissing
  by_cases h : c ∈ cols
  · rwa [if_pos h]
  · rw [if_neg h]; simp

lemma addColumnIfMissing_mem_mono (cols : List String) (c d : String)
    (h : c ∈ cols) : c ∈ addColumnIfMissing cols d := by
  unfold addColumnIfMissing
  by_cases hd : d ∈ cols
  · rwa [if_pos hd]
  · rw [if_neg hd]; exact List.mem_append_left _ h

/-- A representative fully migrated table, used by the witness. -/
def migratedTable : Table :=
  { columns := baseColumns ++ ["entry_price", "result", "pips"],
    rows := [sampleRow1, sampleRow2] }

/-- C7: the startup schema setup is idempotent — running it again on the
store it produced changes nothing; on any already-migrated table it is the
identity (no schema change); and on any existing table it never loses rows. -/
theorem c7_initialize_idempotent :
    (∀ s : Option Table, initializeStore (some (initializeStore s)) = initializeStore s) ∧
    (∀ t : Table, "entry_price" ∈ t.columns → "result" ∈ t.columns →
      "pips" ∈ t.columns → initializeStore (some t) = t) ∧
    (∀ t : Table, (initializeStore (some t)).rows = t.rows) := by
  have hmigrated : ∀ t : Table, "entry_price" ∈ t.columns → "result" ∈ t.columns →
      "pips" ∈ t.columns → initializeStore (some t) = t := by
    intro t he hr hp
    have h1 : addColumnIfMissing t.columns "entry_price" = t.columns := if_pos he
    have h2 : addColumnIfMissing t.columns "result" = t.columns := if_pos hr
    have h3 : addColumnIfMissing t.columns "pips" = t.columns := if_pos hp
    cases t
    simp_all [initializeStore, migrateColumns]
  have hcols : ∀ s : Option Table, "entry_price" ∈ (initializeStore s).columns ∧
      "result" ∈ (initializeStore s).columns ∧ "pips" ∈ (initializeStore s).columns := by
    intro s
    have hm : ∀ cols : List String, "entry_price" ∈ migrateColumns cols ∧
        "result" ∈ migrateColumns cols ∧ "pips" ∈ migrateColumns cols := by
      intro cols
      refine ⟨?_, ?_, addColumnIfMissing_mem_self _ _⟩
      · exact addColumnIfMissing_mem_mono _ _ _
          (addColumnIfMissing_mem_mono _ _ _ (addColumnIfMissing_mem_self _ _))
      · exact addColumnIfMissing_mem_mono _ _ _ (addColumnIfMissing_mem_self _ _)
    cases s
    · exact hm baseColumns
    · exact hm _
  refine ⟨?_, hmigrated, ?_⟩
  · intro s
    exact hmigrated _ (hcols s).1 (hcols s).2.1 (hcols s).2.2
  · intro t
    cases t
    rfl

theorem c7_initialize_idempotent_witness :
    initializeStore (some (initializeStore none)) = initializeStore none ∧
    initializeStore (some migratedTable) = migratedTable ∧
    (initializeStore (some migratedTable)).rows = migratedTable.rows :=
  ⟨c7_initialize_idempotent.1 none,
   c7_initialize_idempotent.2.1 migratedTable (by decide) (by decide) (by decide),
   c7_initialize_idempotent.2.2 migratedTable⟩

/-! ### Weekly / monthly aggregation (trade_journal.py:153-166)

`pd.to_datetime` over the `time` column (raising on unparsable values), then
`isocalendar().week` / `.dt.month` keys, then `groupby(key).size()`. -/

/-- Day of the year (1-based) in the Gregorian calendar. -/
def dayOfYear (y m d : Nat) : Nat :=
  ((List.range (m - 1)).map (fun i => daysInMonth y (i + 1))).sum + d

/-- Days strictly before January 1 of year `y` in the proleptic Gregorian
calendar (year 1, month 1, day 1 has ordinal 1). -/
def daysBeforeYear (y : Nat) : Nat :=
  365 * (y - 1) + (y - 1) / 4 + (y - 1) / 400 - (y - 1) / 100

/-- Proleptic-Gregorian ordinal day number (0001-01-01 is day 1). -/
def ordinalDay (y m d : Nat) : Nat :=
  daysBeforeYear y + dayOfYear y m d

/-- ISO weekday: Monday = 1 .. Sunday = 7 (0001-01-01 is a Monday). -/
def isoWeekday (y m d : Nat) : Nat :=
  (ordinalDay y m d - 1) % 7 + 1

/-- Number of ISO-8601 weeks in year `y`: 53 when Jan 1 is a Thursday, or a
Wednesday of a leap year; else 52. -/
def isoWeeksInYear (y : Nat) : Nat :=
  if isoWeekday y 1 1 = 4 ∨ (isLeapYear y ∧ isoWeekday y 1 1 = 3) then 53 else 52

/-- ISO-8601 week number of a date, as `isocalendar().week` computes it. -/
def isoWeek (y m d : Nat) : Nat :=
  let w := (10 + dayOfYear y m d - isoWeekday y m d) / 7
  if w = 0 then isoWeeksInYear (y - 1)
  else if isoWeeksInYear y < w then 1
  else w

/-- The `week` key of a row (`isocalendar().week` of its parsed `time`;
0 placeholder when unparsable, unused because the column parse raises). -/
def weekOfRow (r : TradeRow) : Nat :=
  ((parseTimestamp r.time).map (fun t => isoWeek t.year t.month t.day)).getD 0

/-- The `month` key of a row (`.dt.month` of its parsed `time`). -/
def monthOfRow (r : TradeRow) : Nat :=
  ((parseTimestamp r.time).map Timestamp.month).getD 0

/-- `groupby(key).size()`: one `(key, count)` entry per distinct key value,
keys sorted ascending as pandas returns them. -/
def groupbySize (key : TradeRow → Nat) (xs : List TradeRow) : List (Nat × Nat) :=
  (List.insertionSort (· ≤ ·) (xs.map key).dedup).map
    (fun k => (k, xs.countP (fun x => key x == k)))

/-- Weekly trade counts (trade_journal.py:154-161): parse every `time`
(raising — `none` — if any is unparsable), key by ISO week, group and
count. -/
def weekly_counts (rows : List TradeRow) : Option (List (Nat × Nat)) :=
  if rows.all (fun r => (parseTimestamp r.time).isSome) then
    some (groupbySize weekOfRow rows)
  else none

/-- Monthly trade counts (trade_journal.py:154-166): parse every `time`,
key by calendar month, group and count. -/
def monthly_counts (rows : List TradeRow) : Option (List (Nat × Nat)) :=
  if rows.all (fun r => (parseTimestamp r.time).isSome) then
    some (groupbySize monthOfRow rows)
  else none

lemma groupbySize_mem (key : TradeRow → Nat) (xs : List TradeRow) (k c : Nat) :
    (k, c) ∈ groupbySize key xs ↔
      ((∃ x ∈ xs, key x = k) ∧ c = xs.countP (fun x => key x == k)) := by
  unfold groupbySize
  rw [List.mem_map]
  constructor
  · rintro ⟨k1, hk1, he⟩
    obtain ⟨h1, h2⟩ := Prod.mk.injEq .. ▸ he
    subst h1
    rw [List.mem_insertionSort, List.mem_dedup, List.mem_map] at hk1
    exact ⟨hk1, h2.symm⟩
  · rintro ⟨⟨x, hx, hk⟩, hc⟩
    refine ⟨k, ?_, by rw [hc]⟩
    rw [List.mem_insertionSort, List.mem_dedup, List.mem_map]
    exact ⟨x, hx, hk⟩

lemma countP_key_eq_count (key : TradeRow → Nat) (xs : List TradeRow) (k : Nat) :
    xs.countP (fun x => key x == k) = (xs.map key).count k := by
  rw [List.count, List.countP_map]
  rfl

lemma groupbySize_sum (key : TradeRow → Nat) (xs : List TradeRow) :
    ((groupbySize key xs).map Prod.snd).sum = xs.length := by
  unfold groupbySize
  rw [List.map_map]
  have h1 : (Prod.snd ∘ fun k => (k, xs.countP (fun x => key x == k))) =
      fun k => xs.countP (fun x => key x == k) := rfl
  rw [h1]
  have h2 : List.Perm
      ((List.insertionSort (· ≤ ·) (xs.map key).dedup).map
        (fun k => xs.countP (fun x => key x == k)))
      (((xs.map key).dedup).map (fun k => xs.countP (fun x => key x == k))) :=
    (List.perm_insertionSort _ _).map _
  rw [h2.sum_eq]
  have h3 : ((xs.map key).dedup).map (fun k => xs.countP (fun x => key x == k)) =
      ((xs.map key).dedup).map (fun k => (xs.map key).count k) :=
    List.map_congr_left (fun k _ => countP_key_eq_count key xs k)
  rw [h3, List.sum_map_count_dedup_eq_length, List.length_map]

lemma parseTimestamp_month_range (s : String) (t : Timestamp)
    (h : parseTimestamp s = some t) : 1 ≤ t.month ∧ t.month ≤ 12 := by
  unfold parseTimestamp at h
  repeat' split at h
  any_goals exact Option.noConfusion h
  unfold mkTimestamp at h
  split at h
  · rename_i hc
    injection h with h
    subst h
    exact ⟨hc.1, hc.2.1⟩
  · exact Option.noConfusion h

/-- The row with an unparsable `time` used to exhibit the aggregation
raising. -/
def badTimeRow : TradeRow :=
  { id := 9, pair := "EURUSD", trade_type := "Buy", time := "bad-time",
    tp := 50, sl := 25, rr := 2, reason := "", entry_price := some 1,
    result := none, pips := none }

/-- C8 counterexample: on a collection holding one record whose `time` is
unparsable, both aggregations raise (`none`) instead of returning the
buckets with the record omitted (`some []`), contrary to the claim. -/
theorem c8_counterexample :
    weekly_counts [badTimeRow] = none ∧ monthly_counts [badTimeRow] = none ∧
    weekly_counts [badTimeRow] ≠ some [] ∧ monthly_counts [badTimeRow] ≠ some [] := by
  decide

/-- C8 amended: the aggregation fails (pd.to_datetime raises) whenever any
record's `time` is unparsable; unparsable records are never silently
omitted. -/
theorem c8_unparsable_raises (rows : List TradeRow)
    (h : ∃ r ∈ rows, parseTimestamp r.time = none) :
    weekly_counts rows = none ∧ monthly_counts rows = none := by
  obtain ⟨r, hr, hp⟩ := h
  have hall : rows.all (fun r => (parseTimestamp r.time).isSome) = false := by
    rw [List.all_eq_false]
    exact ⟨r, hr, by simp [hp]⟩
  constructor
  · simp only [weekly_counts, hall]
    rfl
  · simp only [monthly_counts, hall]
    rfl

theorem c8_unparsable_raises_witness :
    weekly_counts [sampleRow1, badTimeRow] = none ∧
    monthly_counts [sampleRow1, badTimeRow] = none :=
  c8_unparsable_raises [sampleRow1, badTimeRow] ⟨badTimeRow, by decide, by decide⟩

/-- C9: when every record's `time` parses, the weekly aggregation succeeds
and holds one bucket per occurring ISO week whose count is the number of
records in that week (and no other buckets); likewise the monthly
aggregation per calendar month, every month bucket lying in 1..12; the
bucket counts of each aggregation total the number of records, so each
record is counted exactly once per aggregation. -/
theorem c9_aggregation_counts (rows : List TradeRow)
    (hp : ∀ r ∈ rows, (parseTimestamp r.time).isSome = true) :
    ∃ wl ml, weekly_counts rows = some wl ∧ monthly_counts rows = some ml ∧
      (∀ k c, (k, c) ∈ wl ↔
        ((∃ r ∈ rows, weekOfRow r = k) ∧ c = rows.countP (fun r => weekOfRow r == k))) ∧
      (∀ k c, (k, c) ∈ ml ↔
        ((∃ r ∈ rows, monthOfRow r = k) ∧ c = rows.countP (fun r => monthOfRow r == k))) ∧
      (wl.map Prod.snd).sum = rows.length ∧
      (ml.map Prod.snd).sum = rows.length ∧
      (∀ k c, (k, c) ∈ ml → 1 ≤ k ∧ k ≤ 12) := by
  have hall : rows.all (fun r => (parseTimestamp r.time).isSome) = true :=
    List.all_eq_true.mpr hp
  refine ⟨groupbySize weekOfRow rows, groupbySize monthOfRow rows, ?_, ?_,
    groupbySize_mem weekOfRow rows, groupbySize_mem monthOfRow rows,
    groupbySize_sum weekOfRow rows, groupbySize_sum monthOfRow rows, ?_⟩
  · simp only [weekly_counts, hall]
    rfl
  · simp only [monthly_counts, hall]
    rfl
  · intro k c hm
    obtain ⟨⟨r, hr, hk⟩, _⟩ := (groupbySize_mem monthOfRow rows k c).mp hm
    obtain ⟨t, ht⟩ := Option.isSome_iff_exists.mp (hp r hr)
    have : monthOfRow r = t.month := by
      simp [monthOfRow, ht]
    rw [← hk, this]
    exact parseTimestamp_month_range r.time t ht

theorem c9_aggregation_counts_witness :
    ∃ wl ml, weekly_counts [sampleRow1, sampleRow2] = some wl ∧
      monthly_counts [sampleRow1, sampleRow2] = some ml ∧
      (∀ k c, (k, c) ∈ wl ↔
        ((∃ r ∈ [sampleRow1, sampleRow2], weekOfRow r = k) ∧
          c = List.countP (fun r => weekOfRow r == k) [sampleRow1, sampleRow2])) ∧
      (∀ k c, (k, c) ∈ ml ↔
        ((∃ r ∈ [sampleRow1, sampleRow2], monthOfRow r = k) ∧
          c = List.countP (fun r => monthOfRow r == k) [sampleRow1, sampleRow2])) ∧
      (wl.map Prod.snd).sum = [sampleRow1, sampleRow2].length ∧
      (ml.map Prod.snd).sum = [sampleRow1, sampleRow2].length ∧
      (∀ k c, (k, c) ∈ ml → 1 ≤ k ∧ k ≤ 12) :=
  c9_aggregation_counts [sampleRow1, sampleRow2] (by decide)

end TradeJournal
